import Mathlib

/-!
Shallow embedding of the `desktop_api` package (window.py, capture.py):
window enumeration on the macOS path, window resolution, capture, and the
action controller's coordinate translation. Strings are modelled as
`List Char`; Python's `str.lower` is `lowerL` (ASCII lowering, as
`Char.toLower` does), `str.strip` is `stripL`, and `q in s` is
`containsSub s q`. The OS is an explicit `OSState` (screen height,
frontmost process id, raw Quartz window records); operations that the
Python code performs by calling the OS are state-passing functions.
-/

namespace DesktopApi

/-- ASCII lower-casing of a string, one character at a time (Python `str.lower`). -/
def lowerL (s : List Char) : List Char := s.map Char.toLower

/-- Strip whitespace from both ends (Python `str.strip`). -/
def stripL (s : List Char) : List Char :=
  ((s.dropWhile Char.isWhitespace).reverse.dropWhile Char.isWhitespace).reverse

/-- `isPre n h` is true when `n` occurs at the start of `h`. -/
def isPre : List Char → List Char → Bool
  | [], _ => true
  | _ :: _, [] => false
  | a :: as, b :: bs => (a == b) && isPre as bs

/-- `containsSub hay needle` is true when `needle` occurs contiguously in `hay`
(Python `needle in hay`). -/
def containsSub : List Char → List Char → Bool
  | [], needle => isPre needle []
  | a :: t, needle => isPre needle (a :: t) || containsSub t needle

/-- Error taxonomy of the package: `WindowNotFoundError` and the
`ValueError` raised for a negative padding. -/
inductive DAErr where
  | windowNotFound
  | invalidArgument
deriving Repr, DecidableEq

deriving instance DecidableEq for Except

/-- Snapshot of a native window (dataclass `WindowHandle` in window.py). -/
structure WindowHandle where
  title : List Char
  left : Int
  top : Int
  width : Int
  height : Int
  is_active : Bool
  handle : Option Int := none
  platform : Option (List Char) := none
  pid : Option Int := none
deriving Repr, DecidableEq

/-- `WindowHandle.as_region` from window.py. -/
structure Region where
  left : Int
  top : Int
  width : Int
  height : Int
deriving Repr, DecidableEq

def WindowHandle.as_region (w : WindowHandle) : Region :=
  ⟨w.left, w.top, w.width, w.height⟩

/-- A raw Quartz window record as read by `_iter_macos_windows`
(kCGWindowLayer, owner name, window name, kCGWindowBounds,
kCGWindowNumber, kCGWindowOwnerPID). -/
structure MacWinInfo where
  layer : Int
  ownerName : List Char
  name : List Char
  boundsX : Int
  boundsY : Int
  boundsW : Int
  boundsH : Int
  windowNumber : Int
  ownerPID : Int
deriving Repr, DecidableEq

/-- The observable OS state the macOS code path reads: the screen height
(pyautogui.size().height), the frontmost application's pid
(NSWorkspace.frontmostApplication), and the Quartz window list. -/
structure OSState where
  screenHeight : Int
  frontmostPID : Option Int
  infos : List MacWinInfo
deriving Repr, DecidableEq

/-- `_mac_window_title`: the owner name and window name joined by a space,
then stripped. -/
def _mac_window_title (info : MacWinInfo) : List Char :=
  stripL (info.ownerName ++ [' '] ++ info.name)

/-- The handle `_iter_macos_windows` yields for one raw record:
Quartz bottom-left origin converted to top-left, width and height clamped
to be non-negative, activity decided by pid equality with the frontmost pid. -/
def macHandleOf (screenHeight : Int) (front : Option Int) (info : MacWinInfo)
    (title : List Char) : WindowHandle :=
  { title := title
    left := info.boundsX
    top := screenHeight - (info.boundsY + info.boundsH)
    width := max 0 info.boundsW
    height := max 0 info.boundsH
    is_active := match front with
      | some a => info.ownerPID == a
      | none => false
    handle := some info.windowNumber
    platform := some ['m', 'a', 'c']
    pid := some info.ownerPID }

/-- The loop of `_iter_macos_windows`: skip non-zero layers and empty titles,
deduplicate on the `(pid, windowNumber)` key, yield converted handles in order. -/
def iterGo (screenHeight : Int) (front : Option Int) :
    List MacWinInfo → List (Int × Int) → List WindowHandle
  | [], _ => []
  | info :: rest, seen =>
    if info.layer ≠ 0 then iterGo screenHeight front rest seen
    else if (_mac_window_title info).isEmpty then iterGo screenHeight front rest seen
    else if seen.contains (info.ownerPID, info.windowNumber) then
      iterGo screenHeight front rest seen
    else macHandleOf screenHeight front info (_mac_window_title info) ::
      iterGo screenHeight front rest ((info.ownerPID, info.windowNumber) :: seen)

/-- `_iter_macos_windows` over the current OS state. -/
def _iter_macos_windows (st : OSState) : List WindowHandle :=
  iterGo st.screenHeight st.frontmostPID st.infos []

/-- `_list_windows_macos`: keep windows whose stripped title is long enough. -/
def _list_windows_macos (st : OSState) (min_title_length : Nat) : List WindowHandle :=
  (_iter_macos_windows st).filter (fun h => min_title_length ≤ (stripL h.title).length)

/-- `list_windows` on the macOS path. -/
def list_windows (st : OSState) (min_title_length : Nat) : List WindowHandle :=
  _list_windows_macos st min_title_length

/-- The matcher inside `find_window`'s loop: both sides folded to lower case
unless `case_sensitive`; equality when `exact`, containment otherwise. -/
def queryMatches (exact case_sensitive : Bool) (query : List Char)
    (h : WindowHandle) : Bool :=
  let query_to_match := if case_sensitive then query else lowerL query
  let title := if case_sensitive then h.title else lowerL h.title
  (exact && (title == query_to_match)) || (!exact && containsSub title query_to_match)

/-- `find_window`: the first enumerated window matching the query, else a
`WindowNotFoundError`. -/
def find_window (st : OSState) (query : List Char) (exact case_sensitive : Bool)
    (min_title_length : Nat) : Except DAErr WindowHandle :=
  match (list_windows st min_title_length).find? (queryMatches exact case_sensitive query) with
  | some h => Except.ok h
  | none => Except.error DAErr.windowNotFound

/-- A resolution target: a previously obtained handle or a raw title string. -/
inductive Target where
  | handle (h : WindowHandle)
  | title (s : List Char)
deriving Repr, DecidableEq

/-- The local `desired_handle` of `_mac_resolve_window`: the target's
platform handle when the target is a `WindowHandle`, else `None`. -/
def desired_handle : Target → Option Int
  | Target.handle h => h.handle
  | Target.title _ => none

/-- The local `desired_title` of `_mac_resolve_window`. -/
def desired_title : Target → List Char
  | Target.handle h => h.title
  | Target.title s => s

/-- The local `normalized_title`: `None` when the desired title is empty
(falsy in Python), else its lower-casing. -/
def normalized_title (t : Target) : Option (List Char) :=
  if (desired_title t).isEmpty then none else some (lowerL (desired_title t))

/-- The first for-loop of `_mac_resolve_window`: first candidate carrying
the desired platform handle. -/
def handle_tier (cands : List WindowHandle) : Option Int → Option WindowHandle
  | some dh => cands.find? (fun c => c.handle == some dh)
  | none => none

/-- The second for-loop: first candidate whose lower-cased title equals the
normalized title. -/
def exact_tier (cands : List WindowHandle) (nt : List Char) : Option WindowHandle :=
  cands.find? (fun c => lowerL c.title == nt)

/-- The third for-loop: first candidate whose lower-cased title contains the
normalized title. -/
def sub_tier (cands : List WindowHandle) (nt : List Char) : Option WindowHandle :=
  cands.find? (fun c => containsSub (lowerL c.title) nt)

/-- `_mac_resolve_window`: platform-handle match first, then exact
lower-cased title match, then lower-cased substring match; an empty desired
title is falsy in Python, so the title tiers are skipped for it. -/
def _mac_resolve_window (st : OSState) (target : Target) : Option WindowHandle :=
  match handle_tier (_list_windows_macos st 1) (desired_handle target) with
  | some c => some c
  | none =>
    match normalized_title target with
    | none => none
    | some nt =>
      match exact_tier (_list_windows_macos st 1) nt with
      | some c => some c
      | none => sub_tier (_list_windows_macos st 1) nt

/-- `refresh_window` on the macOS path: a pure read of the OS state, returned
together with the (unchanged) state. -/
def refresh_window (st : OSState) (target : Target) :
    Except DAErr WindowHandle × OSState :=
  match _mac_resolve_window st target with
  | none => (Except.error DAErr.windowNotFound, st)
  | some w => (Except.ok w, st)

/-- `_mac_activate_pid`: the AppKit activation call, modelled as making the
addressed process frontmost; a `none` pid is a no-op, as in the source. -/
def _mac_activate_pid (st : OSState) (pid : Option Int) : OSState :=
  match pid with
  | none => st
  | some p => { st with frontmostPID := some p }

/-- `activate_window` on the macOS path: resolve, activate the owning pid,
then re-refresh the resolved handle against the updated state. -/
def activate_window (st : OSState) (target : Target) :
    Except DAErr WindowHandle × OSState :=
  match _mac_resolve_window st target with
  | none => (Except.error DAErr.windowNotFound, st)
  | some refreshed =>
    let st' := _mac_activate_pid st refreshed.pid
    ((refresh_window st' (Target.handle refreshed)).1, st')

/-- `capture_region` from capture.py: the rectangle actually grabbed, with
width and height clamped to at least 1. -/
def capture_region (r : Region) : Region :=
  { r with width := max 1 r.width, height := max 1 r.height }

/-- Result of a window capture: the region handed to `capture_region` and
the rectangle that was grabbed. -/
structure CaptureResult where
  requested : Region
  grabbed : Region
deriving Repr, DecidableEq

/-- `capture_window` from capture.py: resolve (activating when asked), then
reject a negative padding, then expand the refreshed window's region by the
padding and delegate to `capture_region`. The resolution happens before the
padding check, exactly as in the source. -/
def capture_window (st : OSState) (target : Target) (activate : Bool)
    (padding : Int) : Except DAErr CaptureResult × OSState :=
  let resolved := if activate then activate_window st target else refresh_window st target
  match resolved with
  | (Except.error e, st') => (Except.error e, st')
  | (Except.ok window, st') =>
    if padding < 0 then (Except.error DAErr.invalidArgument, st')
    else
      let region := window.as_region
      let region := if padding ≠ 0 then
          { left := region.left - padding, top := region.top - padding,
            width := region.width + padding * 2,
            height := region.height + padding * 2 : Region }
        else region
      (Except.ok ⟨region, capture_region region⟩, st')

/-- Modelled from the spec: the Action Controller's `click` (the `actions`
module is not under src/). With `relativeTo` a window target, the point is
translated by the `(left, top)` of a freshly refreshed handle; otherwise
`(x, y)` is used as absolute coordinates. The returned pair is the absolute
point at which the press-release is synthesized. -/
def click (st : OSState) (x y : Int) (relative_to : Option Target) :
    Except DAErr (Int × Int) :=
  match relative_to with
  | none => Except.ok (x, y)
  | some t =>
    match (refresh_window st t).1 with
    | Except.error e => Except.error e
    | Except.ok w => Except.ok (w.left + x, w.top + y)

/-- A raw pygetwindow window object as `_to_handle` and `_extract_handle`
see it: geometry corners, title, and the optional platform-specific
attributes (`_hWnd`, `_nsWindowNumber`, `_xid`); `none` models a missing
attribute. -/
structure RawWindow where
  title : List Char
  left : Int
  top : Int
  right : Int
  bottom : Int
  hWnd : Option Int := none
  nsWindowNumber : Option Int := none
  xid : Option Int := none
deriving Repr, DecidableEq

/-- Python truthiness of an optional integer attribute: `None` and `0` are
both falsy. -/
def truthyInt : Option Int → Option Int
  | some n => if n = 0 then none else some n
  | none => none

/-- `_extract_handle`: the first truthy of `_hWnd`, `_nsWindowNumber`,
`_xid`, else `None`. -/
def _extract_handle : Option RawWindow → Option Int
  | none => none
  | some w =>
    match truthyInt w.hWnd with
    | some n => some n
    | none =>
      match truthyInt w.nsWindowNumber with
      | some n => some n
      | none => truthyInt w.xid

/-- `_detect_platform`: which platform attribute the object carries. -/
def _detect_platform (w : RawWindow) : Option (List Char) :=
  if w.hWnd.isSome then some ['w', 'i', 'n', 'd', 'o', 'w', 's']
  else if w.nsWindowNumber.isSome then some ['m', 'a', 'c']
  else if w.xid.isSome then some ['l', 'i', 'n', 'u', 'x']
  else none

/-- `_to_handle`: width and height computed from the corner coordinates and
clamped to be non-negative; `resolved_active` is the already-resolved active
window's handle (the caller resolves it when it passes `None`). -/
def _to_handle (resolved_active : Option Int) (w : RawWindow) : WindowHandle :=
  { title := w.title
    left := w.left
    top := w.top
    width := max 0 (w.right - w.left)
    height := max 0 (w.bottom - w.top)
    is_active := _extract_handle (some w) == resolved_active
    handle := _extract_handle (some w)
    platform := _detect_platform w }

/-- `_resolve_window_object`: on the pygetwindow path, a handle match over
`getAllWindows()` first; only when the target carries no handle or no window
matches it does the code fall back to `getWindowsWithTitle` (an external
collaborator, passed in as `gwt`), taking its first result. -/
def _resolve_window_object (allWins : List RawWindow)
    (gwt : List Char → List RawWindow) (target : Target) : Option RawWindow :=
  match target with
  | Target.handle h =>
    match h.handle with
    | some n =>
      match allWins.find? (fun w => _extract_handle (some w) == some n) with
      | some w => some w
      | none => (gwt h.title).head?
    | none => (gwt h.title).head?
  | Target.title s => (gwt s).head?

/-!  Spec-side definitions, written from the specification's words, to be
compared against the source-derived functions above. -/

/-- Case folding as the spec words it: lower-case both sides unless the
comparison is case-sensitive. -/
def specFold (case_sensitive : Bool) (s : List Char) : List Char :=
  if case_sensitive then s else lowerL s

/-- The spec's matching criterion for `findWindow`: title equals the query
when `exact`, contains it as a substring otherwise, both case-folded. -/
def specMatches (exact case_sensitive : Bool) (query : List Char)
    (h : WindowHandle) : Bool :=
  if exact then specFold case_sensitive h.title == specFold case_sensitive query
  else containsSub (specFold case_sensitive h.title) (specFold case_sensitive query)

/-- `b` occurs contiguously inside `a` (first-principles decomposition). -/
def IsSubstring (a b : List Char) : Prop :=
  ∃ pre post, a = pre ++ b ++ post

/-- `a` is a proper superstring of `b`: `b` occurs inside `a` and `a ≠ b`. -/
def ProperSuperstring (a b : List Char) : Prop :=
  IsSubstring a b ∧ a ≠ b

/-! Concrete states used to exercise the theorems. -/

/-- A Quartz record for a window titled `untitled - Notepad`. -/
def infoNotepad : MacWinInfo :=
  { layer := 0, ownerName := "untitled".toList, name := "- Notepad".toList,
    boundsX := 10, boundsY := 20, boundsW := 300, boundsH := 200,
    windowNumber := 11, ownerPID := 7 }

/-- A Quartz record for a window titled `untitled - notepad`. -/
def infoNotepadLower : MacWinInfo :=
  { layer := 0, ownerName := "untitled".toList, name := "- notepad".toList,
    boundsX := 10, boundsY := 20, boundsW := 300, boundsH := 200,
    windowNumber := 11, ownerPID := 7 }

/-- A Quartz record for the spec's end-to-end window `Example — App` at
`(left 100, top 50, width 800, height 600)` on a 1080-pixel-tall screen. -/
def infoExampleApp : MacWinInfo :=
  { layer := 0, ownerName := "Example".toList, name := "— App".toList,
    boundsX := 100, boundsY := 430, boundsW := 800, boundsH := 600,
    windowNumber := 21, ownerPID := 9 }

/-- A state holding only the `untitled - Notepad` window. -/
def demoSt : OSState :=
  { screenHeight := 1080, frontmostPID := none, infos := [infoNotepad] }

/-- A state holding only the `untitled - notepad` window. -/
def demoStLower : OSState :=
  { screenHeight := 1080, frontmostPID := none, infos := [infoNotepadLower] }

/-- A state holding only the `Example — App` window. -/
def demoStApp : OSState :=
  { screenHeight := 1080, frontmostPID := none, infos := [infoExampleApp] }

/-- A state with no windows at all. -/
def emptySt : OSState :=
  { screenHeight := 1080, frontmostPID := none, infos := [] }

/-- A Quartz record titled `target`, window number 31. -/
def infoTitledTarget : MacWinInfo :=
  { layer := 0, ownerName := "target".toList, name := [],
    boundsX := 0, boundsY := 0, boundsW := 50, boundsH := 40,
    windowNumber := 31, ownerPID := 5 }

/-- A Quartz record titled `other`, window number 32. -/
def infoTitledOther : MacWinInfo :=
  { layer := 0, ownerName := "other".toList, name := [],
    boundsX := 200, boundsY := 300, boundsW := 60, boundsH := 70,
    windowNumber := 32, ownerPID := 6 }

/-- A state with the `target` and `other` windows, in that order. -/
def demoTwoSt : OSState :=
  { screenHeight := 1080, frontmostPID := none,
    infos := [infoTitledTarget, infoTitledOther] }

/-- A stale handle whose platform handle is window number 32 but whose title
says `target`: handle resolution must prefer the platform handle. -/
def staleMismatch : WindowHandle :=
  { title := "target".toList, left := 0, top := 0, width := 0, height := 0,
    is_active := false, handle := some 32, platform := some ['m', 'a', 'c'],
    pid := some 6 }

/-! Helper lemmas. -/

theorem isPre_iff (n h : List Char) : isPre n h = true ↔ ∃ post, h = n ++ post := by
  induction n generalizing h with
  | nil => simp [isPre]
  | cons a as ih =>
    cases h with
    | nil => simp [isPre]
    | cons b bs =>
      simp only [isPre, Bool.and_eq_true, beq_iff_eq, ih, List.cons_append,
        List.cons.injEq]
      constructor
      · rintro ⟨rfl, post, rfl⟩
        exact ⟨post, rfl, rfl⟩
      · rintro ⟨post, rfl, rfl⟩
        exact ⟨rfl, post, rfl⟩

theorem containsSub_iff (h n : List Char) :
    containsSub h n = true ↔ ∃ pre post, h = pre ++ n ++ post := by
  induction h with
  | nil =>
    simp only [containsSub, isPre_iff]
    constructor
    · rintro ⟨post, hp⟩
      exact ⟨[], post, by simpa using hp⟩
    · rintro ⟨pre, post, hp⟩
      refine ⟨post, ?_⟩
      rcases List.append_eq_nil.mp hp.symm with ⟨h1, h2⟩
      rcases List.append_eq_nil.mp h1 with ⟨rfl, rfl⟩
      simpa using hp
  | cons a t ih =>
    simp only [containsSub, Bool.or_eq_true, isPre_iff, ih]
    constructor
    · rintro (⟨post, hp⟩ | ⟨pre, post, hp⟩)
      · exact ⟨[], post, by simpa using hp⟩
      · exact ⟨a :: pre, post, by simp [hp]⟩
    · rintro ⟨pre, post, hp⟩
      cases pre with
      | nil => exact Or.inl ⟨post, by simpa using hp⟩
      | cons p ps =>
        simp only [List.cons_append, List.cons.injEq, List.append_assoc] at hp
        exact Or.inr ⟨ps, post, by simp [hp.2]⟩

theorem lowerL_length (s : List Char) : (lowerL s).length = s.length := by
  simp [lowerL]

theorem lowerL_isEmpty (s : List Char) : (lowerL s).isEmpty = s.isEmpty := by
  cases s <;> simp [lowerL, List.isEmpty]

theorem queryMatches_eq_specMatches (ex cs : Bool) (q : List Char) (h : WindowHandle) :
    queryMatches ex cs q h = specMatches ex cs q h := by
  cases ex <;> cases cs <;> simp [queryMatches, specMatches, specFold]

theorem find?_eq_some_decomp {α : Type} (p : α → Bool) (l : List α) (a : α) :
    l.find? p = some a ↔
      ∃ pre post, l = pre ++ a :: post ∧ p a = true ∧ ∀ x ∈ pre, p x = false := by
  induction l with
  | nil =>
    simp only [List.find?_nil]
    constructor
    · intro hc; cases hc
    · rintro ⟨pre, post, hl, -, -⟩
      cases pre <;> cases hl
  | cons b t ih =>
    by_cases hb : p b
    · rw [List.find?_cons_of_pos _ hb]
      constructor
      · rintro hba
        cases hba
        exact ⟨[], t, rfl, hb, by simp⟩
      · rintro ⟨pre, post, hl, ha, hpre⟩
        cases pre with
        | nil =>
          simp only [List.nil_append, List.cons.injEq] at hl
          rw [hl.1]
        | cons c cs =>
          simp only [List.cons_append, List.cons.injEq] at hl
          have : p c = false := hpre c (by simp)
          rw [hl.1] at hb
          rw [hb] at this
          cases this
    · rw [List.find?_cons_of_neg _ hb, ih]
      constructor
      · rintro ⟨pre, post, hl, ha, hpre⟩
        refine ⟨b :: pre, post, by simp [hl], ha, ?_⟩
        intro x hx
        rcases List.mem_cons.mp hx with rfl | hx
        · simpa using hb
        · exact hpre x hx
      · rintro ⟨pre, post, hl, ha, hpre⟩
        cases pre with
        | nil =>
          simp only [List.nil_append, List.cons.injEq] at hl
          rw [hl.1] at hb
          exact absurd ha hb
        | cons c cs =>
          simp only [List.cons_append, List.cons.injEq] at hl
          exact ⟨cs, post, hl.2, ha, fun x hx => hpre x (by simp [hx])⟩

theorem find?_eq_of_unique {α : Type} (p : α → Bool) (l : List α) (a : α)
    (ha : a ∈ l) (hpa : p a = true) (huniq : ∀ y ∈ l, p y = true → y = a) :
    l.find? p = some a := by
  induction l with
  | nil => cases ha
  | cons b t ih =>
    by_cases hb : p b
    · have hba : b = a := huniq b (by simp) hb
      rw [List.find?_cons_of_pos _ hb, hba]
    · rw [List.find?_cons_of_neg _ hb]
      rcases List.mem_cons.mp ha with rfl | hat
      · exact absurd hpa hb
      · exact ih hat (fun y hy hpy => huniq y (by simp [hy]) hpy)

theorem mem_iterGo_spec (sh : Int) (f : Option Int) (infos : List MacWinInfo) :
    ∀ (seen : List (Int × Int)) (c : WindowHandle), c ∈ iterGo sh f infos seen →
      (∃ n, c.handle = some n) ∧ 0 ≤ c.width ∧ 0 ≤ c.height := by
  induction infos with
  | nil => intro seen c hc; simp [iterGo] at hc
  | cons info rest ih =>
    intro seen c hc
    unfold iterGo at hc
    split at hc
    · exact ih _ _ hc
    · split at hc
      · exact ih _ _ hc
      · split at hc
        · exact ih _ _ hc
        · rcases List.mem_cons.mp hc with rfl | hmem
          · exact ⟨⟨info.windowNumber, rfl⟩, le_max_left 0 _, le_max_left 0 _⟩
          · exact ih _ _ hmem

theorem mem_of_mem_list_windows (st : OSState) (m : Nat) (c : WindowHandle)
    (hc : c ∈ _list_windows_macos st m) : c ∈ _iter_macos_windows st :=
  (List.mem_filter.mp hc).1

theorem list_windows_handle_nonneg (st : OSState) (m : Nat) (c : WindowHandle)
    (hc : c ∈ _list_windows_macos st m) :
    (∃ n, c.handle = some n) ∧ 0 ≤ c.width ∧ 0 ≤ c.height :=
  mem_iterGo_spec st.screenHeight st.frontmostPID st.infos []
    c (mem_of_mem_list_windows st m c hc)

theorem resolve_of_handle_tier (st : OSState) (t : Target) (c : WindowHandle)
    (h : handle_tier (_list_windows_macos st 1) (desired_handle t) = some c) :
    _mac_resolve_window st t = some c := by
  unfold _mac_resolve_window
  rw [h]

theorem resolve_of_no_handle_no_title (st : OSState) (t : Target)
    (h1 : handle_tier (_list_windows_macos st 1) (desired_handle t) = none)
    (h2 : normalized_title t = none) :
    _mac_resolve_window st t = none := by
  unfold _mac_resolve_window
  rw [h1, h2]

theorem resolve_of_exact_tier (st : OSState) (t : Target) (nt : List Char) (c : WindowHandle)
    (h1 : handle_tier (_list_windows_macos st 1) (desired_handle t) = none)
    (h2 : normalized_title t = some nt)
    (h3 : exact_tier (_list_windows_macos st 1) nt = some c) :
    _mac_resolve_window st t = some c := by
  unfold _mac_resolve_window
  rw [h1, h2]
  dsimp only
  rw [h3]

theorem resolve_of_sub_tier (st : OSState) (t : Target) (nt : List Char)
    (h1 : handle_tier (_list_windows_macos st 1) (desired_handle t) = none)
    (h2 : normalized_title t = some nt)
    (h3 : exact_tier (_list_windows_macos st 1) nt = none) :
    _mac_resolve_window st t = sub_tier (_list_windows_macos st 1) nt := by
  unfold _mac_resolve_window
  rw [h1, h2]
  dsimp only
  rw [h3]

theorem resolve_mem (st : OSState) (t : Target) (c : WindowHandle)
    (hc : _mac_resolve_window st t = some c) : c ∈ _list_windows_macos st 1 := by
  unfold _mac_resolve_window at hc
  split at hc
  next x heq =>
    cases hc
    unfold handle_tier at heq
    split at heq
    · exact List.mem_of_find?_eq_some heq
    · cases heq
  next heq =>
    split at hc
    · cases hc
    next nt hnt =>
      split at hc
      next x heq2 =>
        cases hc
        exact List.mem_of_find?_eq_some heq2
      next heq2 =>
        exact List.mem_of_find?_eq_some hc

theorem refresh_snd (st : OSState) (t : Target) : (refresh_window st t).2 = st := by
  unfold refresh_window
  split <;> rfl

theorem refresh_ok_iff (st : OSState) (t : Target) (w : WindowHandle) :
    (refresh_window st t).1 = Except.ok w ↔ _mac_resolve_window st t = some w := by
  unfold refresh_window
  constructor
  · intro h
    split at h
    · cases h
    next w2 hw2 =>
      cases h
      exact hw2
  · intro h
    rw [h]

theorem refresh_err_iff (st : OSState) (t : Target) :
    (refresh_window st t).1 = Except.error DAErr.windowNotFound ↔
      _mac_resolve_window st t = none := by
  unfold refresh_window
  constructor
  · intro h
    split at h
    next hw => exact hw
    next w2 hw2 => cases h
  · intro h
    rw [h]

theorem resolve_self (st : OSState) (w : WindowHandle)
    (hw : w ∈ _list_windows_macos st 1)
    (hu : ((_list_windows_macos st 1).map (fun c => c.handle)).Nodup) :
    _mac_resolve_window st (Target.handle w) = some w := by
  rcases (list_windows_handle_nonneg st 1 w hw).1 with ⟨n, hn⟩
  apply resolve_of_handle_tier
  show handle_tier (_list_windows_macos st 1) w.handle = some w
  rw [hn]
  unfold handle_tier
  apply find?_eq_of_unique _ _ _ hw (by simp [hn])
  intro y hy hpy
  have hyh : y.handle = w.handle := by
    simp only [beq_iff_eq] at hpy
    rw [hpy, hn]
  exact List.inj_on_of_nodup_map hu hy hw hyh

/-! Claim theorems. -/

/-- C5: for every region with `width ≤ 0` or `height ≤ 0`, `capture_region`
does not fail: it captures a region whose width and height are each
`max 1` of the given value (so 1 for each non-positive dimension), with
`left` and `top` unchanged. -/
theorem captureRegion_clamps (r : Region) (hr : r.width ≤ 0 ∨ r.height ≤ 0) :
    capture_region r =
      { left := r.left, top := r.top, width := max 1 r.width, height := max 1 r.height }
    ∧ (r.width ≤ 0 → (capture_region r).width = 1)
    ∧ (r.height ≤ 0 → (capture_region r).height = 1)
    ∧ (capture_region r).left = r.left ∧ (capture_region r).top = r.top := by
  refine ⟨rfl, ?_, ?_, rfl, rfl⟩ <;> intro hd <;> simp [capture_region] <;> omega

/-- Witness for C5 at the concrete region `(5, 6, -3, 0)`. -/
theorem captureRegion_clamps_witness :
    capture_region ⟨5, 6, -3, 0⟩ = { left := 5, top := 6, width := 1, height := 1 } :=
  (captureRegion_clamps ⟨5, 6, -3, 0⟩ (Or.inl (by decide))).1.trans (by decide)

/-- C1: `find_window` returns the first listed window matching the spec's
criterion — title equal to the query when `exact`, containing it otherwise,
both sides case-folded unless `case_sensitive`; with `exact` it never
returns a window whose folded title is a proper superstring of the folded
query, while without `exact` every such window matches; and it fails with
`WindowNotFoundError` iff no listed window matches. -/
theorem findWindow_spec (st : OSState) (q : List Char) (ex cs : Bool) (m : Nat) :
    (find_window st q ex cs m = Except.error DAErr.windowNotFound ↔
      ∀ h ∈ list_windows st m, specMatches ex cs q h = false)
    ∧ (∀ h, find_window st q ex cs m = Except.ok h →
        ∃ pre post, list_windows st m = pre ++ h :: post ∧
          specMatches ex cs q h = true ∧
          ∀ g ∈ pre, specMatches ex cs q g = false)
    ∧ (∀ h, find_window st q true cs m = Except.ok h →
        ¬ ProperSuperstring (specFold cs h.title) (specFold cs q))
    ∧ (∀ h ∈ list_windows st m,
        ProperSuperstring (specFold cs h.title) (specFold cs q) →
        specMatches false cs q h = true) := by
  have hfun : ∀ (e : Bool), queryMatches e cs q = specMatches e cs q :=
    fun e => funext (queryMatches_eq_specMatches e cs q)
  have hok : ∀ (e : Bool) (h : WindowHandle), find_window st q e cs m = Except.ok h →
      (list_windows st m).find? (specMatches e cs q) = some h := by
    intro e h hfind
    unfold find_window at hfind
    rw [hfun e] at hfind
    split at hfind
    next h2 hh2 =>
      cases hfind
      exact hh2
    next hh2 => cases hfind
  refine ⟨?_, ?_, ?_, ?_⟩
  · unfold find_window
    rw [hfun ex]
    constructor
    · intro he
      split at he
      next h hh => cases he
      next hh =>
        intro h hm
        have := List.find?_eq_none.mp hh h hm
        simpa using this
    · intro hall
      have hnone : (list_windows st m).find? (specMatches ex cs q) = none :=
        List.find?_eq_none.mpr (fun x hx => by simp [hall x hx])
      rw [hnone]
  · intro h hfind
    exact (find?_eq_some_decomp _ _ _).mp (hok ex h hfind)
  · intro h hfind hsuper
    have hm : specMatches true cs q h = true := List.find?_some (hok true h hfind)
    have heq : specFold cs h.title = specFold cs q := by
      unfold specMatches at hm
      simpa using hm
    exact hsuper.2 heq
  · intro h hm hsuper
    unfold specMatches
    simp only [if_neg (Bool.false_ne_true)]
    rcases hsuper.1 with ⟨pre, post, hdec⟩
    exact (containsSub_iff _ _).mpr ⟨pre, post, hdec⟩

/-- Witness for C1: with the stored title `untitled - notepad` and a
case-sensitive inexact search for `Notepad`, `find_window` reports
`WindowNotFoundError`. -/
theorem findWindow_spec_witness :
    find_window demoStLower ("Notepad".toList) false true 1 =
      Except.error DAErr.windowNotFound :=
  (findWindow_spec demoStLower ("Notepad".toList) false true 1).1.mpr (by decide)

/-- C4: window resolution searches the enumerated windows for a matching
platform handle first (title-independent, first carrier wins); only when the
target carries no platform handle or no enumerated window carries it does it
fall back to the exact lower-cased title match, and only after that fails to
the substring match; with neither handle nor usable title it resolves
nothing. On the pygetwindow path the handle search likewise precedes the
`getWindowsWithTitle` fallback. -/
theorem resolution_handle_first (st : OSState) (t : Target) :
    (∀ (n : Int) (pre : List WindowHandle) (c : WindowHandle) (post : List WindowHandle),
      desired_handle t = some n →
      _list_windows_macos st 1 = pre ++ c :: post → c.handle = some n →
      (∀ g ∈ pre, g.handle ≠ some n) →
      _mac_resolve_window st t = some c)
    ∧ (∀ (nt : List Char) (pre : List WindowHandle) (c : WindowHandle) (post : List WindowHandle),
      normalized_title t = some nt →
      (∀ n, desired_handle t = some n → ∀ d ∈ _list_windows_macos st 1, d.handle ≠ some n) →
      _list_windows_macos st 1 = pre ++ c :: post → lowerL c.title = nt →
      (∀ g ∈ pre, lowerL g.title ≠ nt) →
      _mac_resolve_window st t = some c)
    ∧ (∀ (nt : List Char) (pre : List WindowHandle) (c : WindowHandle) (post : List WindowHandle),
      normalized_title t = some nt →
      (∀ n, desired_handle t = some n → ∀ d ∈ _list_windows_macos st 1, d.handle ≠ some n) →
      (∀ d ∈ _list_windows_macos st 1, lowerL d.title ≠ nt) →
      _list_windows_macos st 1 = pre ++ c :: post →
      containsSub (lowerL c.title) nt = true →
      (∀ g ∈ pre, containsSub (lowerL g.title) nt = false) →
      _mac_resolve_window st t = some c)
    ∧ ((∀ n, desired_handle t = some n → ∀ d ∈ _list_windows_macos st 1, d.handle ≠ some n) →
      normalized_title t = none →
      _mac_resolve_window st t = none)
    ∧ (∀ (allWins : List RawWindow) (gwt : List Char → List RawWindow)
        (h : WindowHandle) (n : Int) (w : RawWindow), h.handle = some n →
        allWins.find? (fun v => _extract_handle (some v) == some n) = some w →
        _resolve_window_object allWins gwt (Target.handle h) = some w)
    ∧ (∀ (allWins : List RawWindow) (gwt : List Char → List RawWindow)
        (h : WindowHandle) (n : Int), h.handle = some n →
        allWins.find? (fun v => _extract_handle (some v) == some n) = none →
        _resolve_window_object allWins gwt (Target.handle h) = (gwt h.title).head?) := by
  have hht : ∀ (hnh : ∀ n, desired_handle t = some n →
      ∀ d ∈ _list_windows_macos st 1, d.handle ≠ some n),
      handle_tier (_list_windows_macos st 1) (desired_handle t) = none := by
    intro hnh
    unfold handle_tier
    cases hdh : desired_handle t with
    | none => rfl
    | some n =>
      exact List.find?_eq_none.mpr (fun d hd => by simpa using hnh n hdh d hd)
  refine ⟨?_, ?_, ?_, ?_, ?_, ?_⟩
  · intro n pre c post hdh hdec hc hpre
    apply resolve_of_handle_tier
    rw [hdh]
    unfold handle_tier
    refine (find?_eq_some_decomp _ _ _).mpr ⟨pre, post, hdec, by simp [hc], ?_⟩
    intro g hg
    simpa using hpre g hg
  · intro nt pre c post hnt hnh hdec hc hpre
    apply resolve_of_exact_tier st t nt c (hht hnh) hnt
    unfold exact_tier
    refine (find?_eq_some_decomp _ _ _).mpr ⟨pre, post, hdec, by simp [hc], ?_⟩
    intro g hg
    simpa using hpre g hg
  · intro nt pre c post hnt hnh hnoex hdec hc hpre
    have hex : exact_tier (_list_windows_macos st 1) nt = none := by
      unfold exact_tier
      exact List.find?_eq_none.mpr (fun d hd => by simpa using hnoex d hd)
    rw [resolve_of_sub_tier st t nt (hht hnh) hnt hex]
    unfold sub_tier
    exact (find?_eq_some_decomp _ _ _).mpr ⟨pre, post, hdec, hc, hpre⟩
  · intro hnh hnt
    exact resolve_of_no_handle_no_title st t (hht hnh) hnt
  · intro allWins gwt h n w hh hfind
    unfold _resolve_window_object
    dsimp only
    rw [hh]
    dsimp only
    rw [hfind]
  · intro allWins gwt h n hh hfind
    unfold _resolve_window_object
    dsimp only
    rw [hh]
    dsimp only
    rw [hfind]

/-- Witness for C4: a stale handle whose platform handle is window 32 but
whose title reads `target` resolves to the `other` window carrying handle
32, not to the window titled `target`. -/
theorem resolution_handle_first_witness :
    _mac_resolve_window demoTwoSt (Target.handle staleMismatch) =
      some (macHandleOf 1080 none infoTitledOther ("other".toList)) :=
  (resolution_handle_first demoTwoSt (Target.handle staleMismatch)).1
    32 [macHandleOf 1080 none infoTitledTarget ("target".toList)]
    (macHandleOf 1080 none infoTitledOther ("other".toList)) []
    (by decide) (by decide) (by decide) (by decide)

/-- C10: the title fallback of resolution is always case-insensitive — both
the target title and each candidate title are lower-cased before the exact
and substring comparisons — so targets whose titles agree up to case resolve
identically, and the fallback outcome is exactly the lower-cased exact tier
followed by the lower-cased substring tier. -/
theorem resolution_title_case_insensitive (st : OSState) :
    (∀ s u : List Char, lowerL s = lowerL u →
      _mac_resolve_window st (Target.title s) = _mac_resolve_window st (Target.title u))
    ∧ (∀ (h : WindowHandle) (u : List Char), h.handle = none → lowerL h.title = lowerL u →
      _mac_resolve_window st (Target.handle h) = _mac_resolve_window st (Target.title u))
    ∧ (∀ t : Target, ∀ nt : List Char, normalized_title t = some nt →
      nt = lowerL (desired_title t))
    ∧ (∀ t : Target, ∀ nt : List Char, normalized_title t = some nt →
      (∀ n, desired_handle t = some n → ∀ d ∈ _list_windows_macos st 1, d.handle ≠ some n) →
      _mac_resolve_window st t =
        match exact_tier (_list_windows_macos st 1) nt with
        | some c => some c
        | none => sub_tier (_list_windows_macos st 1) nt) := by
  have hempty : ∀ s u : List Char, lowerL s = lowerL u → s.isEmpty = u.isEmpty := by
    intro s u hsu
    have hlen : s.length = u.length := by
      have := congrArg List.length hsu
      simpa [lowerL_length] using this
    cases s <;> cases u <;> simp_all
  have hmain : ∀ s u : List Char, lowerL s = lowerL u →
      _mac_resolve_window st (Target.title s) = _mac_resolve_window st (Target.title u) := by
    intro s u hsu
    unfold _mac_resolve_window
    simp only [desired_handle, handle_tier, normalized_title, desired_title]
    rw [hsu, hempty s u hsu]
  have hht : ∀ t : Target,
      (∀ n, desired_handle t = some n → ∀ d ∈ _list_windows_macos st 1, d.handle ≠ some n) →
      handle_tier (_list_windows_macos st 1) (desired_handle t) = none := by
    intro t hnh
    unfold handle_tier
    cases hdh : desired_handle t with
    | none => rfl
    | some n =>
      exact List.find?_eq_none.mpr (fun d hd => by simpa using hnh n hdh d hd)
  refine ⟨hmain, ?_, ?_, ?_⟩
  · intro h u hh hsu
    have h1 : _mac_resolve_window st (Target.handle h) =
        _mac_resolve_window st (Target.title h.title) := by
      unfold _mac_resolve_window
      simp only [desired_handle, handle_tier, normalized_title, desired_title, hh]
    rw [h1]
    exact hmain h.title u hsu
  · intro t nt hnt
    unfold normalized_title at hnt
    split at hnt
    · cases hnt
    · cases hnt; rfl
  · intro t nt hnt hnh
    rw [show _mac_resolve_window st t =
        match handle_tier (_list_windows_macos st 1) (desired_handle t) with
        | some c => some c
        | none =>
          match normalized_title t with
          | none => none
          | some nt =>
            match exact_tier (_list_windows_macos st 1) nt with
            | some c => some c
            | none => sub_tier (_list_windows_macos st 1) nt
      from rfl]
    rw [hht t hnh, hnt]

/-- Witness for C10: searching for `NOTEPAD` and `notepad` resolve to the
same window. -/
theorem resolution_title_case_insensitive_witness :
    _mac_resolve_window demoSt (Target.title ("NOTEPAD".toList)) =
      _mac_resolve_window demoSt (Target.title ("notepad".toList)) :=
  (resolution_title_case_insensitive demoSt).1
    ("NOTEPAD".toList) ("notepad".toList) (by decide)

theorem capture_window_of_ok (st : OSState) (t : Target) (activate : Bool) (p : Int)
    (w : WindowHandle) (st2 : OSState)
    (hres : (if activate then activate_window st t else refresh_window st t) =
      (Except.ok w, st2))
    (hp : ¬ p < 0) :
    capture_window st t activate p =
      (Except.ok
        ⟨if p ≠ 0 then
            { left := w.as_region.left - p, top := w.as_region.top - p,
              width := w.as_region.width + p * 2,
              height := w.as_region.height + p * 2 : Region }
          else w.as_region,
          capture_region (if p ≠ 0 then
            { left := w.as_region.left - p, top := w.as_region.top - p,
              width := w.as_region.width + p * 2,
              height := w.as_region.height + p * 2 : Region }
          else w.as_region)⟩, st2) := by
  unfold capture_window
  rw [hres]
  dsimp only
  rw [if_neg hp]

theorem capture_window_of_err (st : OSState) (t : Target) (activate : Bool) (p : Int)
    (e : DAErr) (st2 : OSState)
    (hres : (if activate then activate_window st t else refresh_window st t) =
      (Except.error e, st2)) :
    capture_window st t activate p = (Except.error e, st2) := by
  unfold capture_window
  rw [hres]

theorem capture_window_of_neg (st : OSState) (t : Target) (activate : Bool) (p : Int)
    (w : WindowHandle) (st2 : OSState)
    (hres : (if activate then activate_window st t else refresh_window st t) =
      (Except.ok w, st2))
    (hp : p < 0) :
    capture_window st t activate p = (Except.error DAErr.invalidArgument, st2) := by
  unfold capture_window
  rw [hres]
  dsimp only
  rw [if_pos hp]

theorem refresh_err_shape (st : OSState) (t : Target) (e : DAErr)
    (h : (refresh_window st t).1 = Except.error e) : e = DAErr.windowNotFound := by
  unfold refresh_window at h
  split at h
  · simpa [eq_comm] using h
  · cases h

theorem activate_err_shape (st : OSState) (t : Target) (e : DAErr)
    (h : (activate_window st t).1 = Except.error e) : e = DAErr.windowNotFound := by
  unfold activate_window at h
  split at h
  · simpa [eq_comm] using h
  next refreshed hres =>
    exact refresh_err_shape _ _ _ h

theorem resolve_for_capture_err_shape (st : OSState) (t : Target) (activate : Bool)
    (e : DAErr)
    (h : (if activate then activate_window st t else refresh_window st t).1 =
      Except.error e) : e = DAErr.windowNotFound := by
  cases activate with
  | false => exact refresh_err_shape st t e (by simpa using h)
  | true => exact activate_err_shape st t e (by simpa using h)

/-- C2: when the target resolves (via `activate_window` when activating,
else `refresh_window`) to a window `w` and the padding `p` is non-negative,
`capture_window` delegates to `capture_region` exactly the region
`(w.left - p, w.top - p, w.width + 2p, w.height + 2p)` built from the
freshly resolved geometry; the stale geometry of a handle passed in never
enters the result. -/
theorem captureWindow_region (st : OSState) (t : Target) (activate : Bool) (p : Int)
    (hp : 0 ≤ p) (w : WindowHandle)
    (hw : (if activate then activate_window st t else refresh_window st t).1 =
      Except.ok w) :
    (∃ res, (capture_window st t activate p).1 = Except.ok res ∧
      res.requested = ⟨w.left - p, w.top - p, w.width + 2 * p, w.height + 2 * p⟩ ∧
      res.grabbed = capture_region res.requested)
    ∧ (∀ (h : WindowHandle) (a b c d : Int),
        capture_window st
            (Target.handle { h with left := a, top := b, width := c, height := d })
            activate p
          = capture_window st (Target.handle h) activate p) := by
  constructor
  · have hres : (if activate then activate_window st t else refresh_window st t) =
        (Except.ok w, (if activate then activate_window st t else refresh_window st t).2) := by
      rw [← hw]
    have hcw := capture_window_of_ok st t activate p w _ hres (not_lt.mpr hp)
    have hreq : (if p ≠ 0 then
        { left := w.as_region.left - p, top := w.as_region.top - p,
          width := w.as_region.width + p * 2,
          height := w.as_region.height + p * 2 : Region }
      else w.as_region) =
        (⟨w.left - p, w.top - p, w.width + 2 * p, w.height + 2 * p⟩ : Region) := by
      by_cases h0 : p = 0
      · subst h0
        simp [WindowHandle.as_region]
      · rw [if_pos h0]
        dsimp only [WindowHandle.as_region]
        rw [Region.mk.injEq]
        refine ⟨rfl, rfl, by ring, by ring⟩
    refine ⟨_, by rw [hcw], ?_, rfl⟩
    exact hreq
  · intro h a b c d
    rfl

/-- Witness for C2: capturing the `Example — App` window with padding 5
requests and grabs the region `(95, 45, 810, 610)`. -/
theorem captureWindow_region_witness :
    (capture_window demoStApp (Target.title ("app".toList)) false 5).1 =
      Except.ok ⟨⟨95, 45, 810, 610⟩, ⟨95, 45, 810, 610⟩⟩ := by
  obtain ⟨⟨req, gr⟩, h1, h2, h3⟩ :=
    (captureWindow_region demoStApp (Target.title ("app".toList)) false 5 (by decide)
      (macHandleOf 1080 none infoExampleApp ("Example — App".toList)) (by decide)).1
  rw [h1]
  dsimp only at h2 h3
  have hreq : req = ⟨95, 45, 810, 610⟩ := by rw [h2]; decide
  have hgr : gr = ⟨95, 45, 810, 610⟩ := by
    rw [h3, hreq]
    decide
  rw [hreq, hgr]

/-- C3 counterexample: with padding `-1` and an unresolvable target the
failure is WindowNotFound, not InvalidArgument; and with a resolvable target
and `activate = true` the focus has already moved to the target's process
when the padding error is raised, so the call is not free of other effects. -/
theorem captureWindow_invalid_counterexample :
    (capture_window emptySt (Target.title ("x".toList)) false (-1)).1 =
      Except.error DAErr.windowNotFound
    ∧ (capture_window emptySt (Target.title ("x".toList)) false (-1)).1 ≠
      Except.error DAErr.invalidArgument
    ∧ (capture_window demoStApp (Target.title ("app".toList)) true (-1)).1 =
      Except.error DAErr.invalidArgument
    ∧ (capture_window demoStApp (Target.title ("app".toList)) true (-1)).2.frontmostPID =
      some 9
    ∧ demoStApp.frontmostPID = none := by
  refine ⟨by decide, by decide, by decide, by decide, rfl⟩

/-- C3 as amended: with padding `p < 0`, `capture_window` never produces an
image; the failure is InvalidArgument exactly when the target resolves and
WindowNotFound exactly when it does not; and with `activate = false` the OS
state is unchanged. -/
theorem captureWindow_negative_padding (st : OSState) (t : Target)
    (activate : Bool) (p : Int) (hp : p < 0) :
    (∀ res, (capture_window st t activate p).1 ≠ Except.ok res)
    ∧ ((capture_window st t activate p).1 = Except.error DAErr.invalidArgument ↔
        ∃ w, (if activate then activate_window st t else refresh_window st t).1 =
          Except.ok w)
    ∧ ((capture_window st t activate p).1 = Except.error DAErr.windowNotFound ↔
        (if activate then activate_window st t else refresh_window st t).1 =
          Except.error DAErr.windowNotFound)
    ∧ (activate = false → (capture_window st t activate p).2 = st) := by
  cases hfst : (if activate then activate_window st t else refresh_window st t).1 with
  | error e =>
    have hcase : (if activate then activate_window st t else refresh_window st t) =
        (Except.error e,
          (if activate then activate_window st t else refresh_window st t).2) := by
      rw [← hfst]
    have he : e = DAErr.windowNotFound :=
      resolve_for_capture_err_shape st t activate e hfst
    subst he
    have hcw := capture_window_of_err st t activate p _ _ hcase
    refine ⟨?_, ?_, ?_, ?_⟩
    · intro res hok
      rw [hcw] at hok
      cases hok
    · rw [hcw]
      simp
    · rw [hcw]
      simp
    · intro hact
      subst hact
      rw [hcw]
      simpa using refresh_snd st t
  | ok w =>
    have hcase : (if activate then activate_window st t else refresh_window st t) =
        (Except.ok w,
          (if activate then activate_window st t else refresh_window st t).2) := by
      rw [← hfst]
    have hcw := capture_window_of_neg st t activate p w _ hcase hp
    refine ⟨?_, ?_, ?_, ?_⟩
    · intro res hok
      rw [hcw] at hok
      cases hok
    · rw [hcw]
      simp
    · rw [hcw]
      simp
    · intro hact
      subst hact
      rw [hcw]
      simpa using refresh_snd st t

/-- Witness for C3 as amended: a resolvable target with padding `-2` yields
InvalidArgument. -/
theorem captureWindow_negative_padding_witness :
    (capture_window demoStApp (Target.title ("app".toList)) false (-2)).1 =
      Except.error DAErr.invalidArgument :=
  (captureWindow_negative_padding demoStApp (Target.title ("app".toList)) false (-2)
    (by decide)).2.1.mpr
    ⟨macHandleOf 1080 none infoExampleApp ("Example — App".toList), by decide⟩

/-- C6 (modelled from the spec, the `actions` module being absent from
src/): a click relative to a window target lands at the absolute point
`(left + x, top + y)` taken from a freshly refreshed handle — independent of
stale geometry carried by a handle passed in — while a click with no
`relativeTo` uses `(x, y)` unchanged. -/
theorem click_translates (st : OSState) (x y : Int) (t : Target) (w : WindowHandle)
    (hw : (refresh_window st t).1 = Except.ok w) :
    click st x y (some t) = Except.ok (w.left + x, w.top + y)
    ∧ click st x y none = Except.ok (x, y)
    ∧ (∀ (h : WindowHandle) (a b c d : Int),
        click st x y
            (some (Target.handle { h with left := a, top := b, width := c, height := d }))
          = click st x y (some (Target.handle h))) := by
  refine ⟨?_, rfl, fun h a b c d => rfl⟩
  unfold click
  dsimp only
  rw [hw]

/-- Witness for C6: the spec's end-to-end scenario — a window at
`(left 100, top 50)` found by the query `app`, clicked at `(40, 40)`
relative, yields an absolute click at `(140, 90)`. -/
theorem click_translates_witness :
    click demoStApp 40 40 (some (Target.title ("app".toList))) = Except.ok (140, 90) := by
  have h := (click_translates demoStApp 40 40 (Target.title ("app".toList))
    (macHandleOf 1080 none infoExampleApp ("Example — App".toList)) (by decide)).1
  rw [h]
  decide

/-- C7: refreshing the handle returned by `refresh_window` against the same
OS state (no intervening change), with OS-unique window numbers among the
enumerated windows, returns the very same handle — in particular identical
`left`, `top`, `width` and `height`. -/
theorem refreshWindow_idempotent (st : OSState) (t : Target) (w : WindowHandle)
    (hu : ((_list_windows_macos st 1).map (fun c => c.handle)).Nodup)
    (h1 : (refresh_window st t).1 = Except.ok w) :
    (refresh_window st (Target.handle w)).1 = Except.ok w
    ∧ ∃ w2, (refresh_window st (Target.handle w)).1 = Except.ok w2 ∧
      w2.left = w.left ∧ w2.top = w.top ∧ w2.width = w.width ∧ w2.height = w.height := by
  have hres := (refresh_ok_iff st t w).mp h1
  have hmem := resolve_mem st t w hres
  have h2 := resolve_self st w hmem hu
  have h2f := (refresh_ok_iff st (Target.handle w) w).mpr h2
  exact ⟨h2f, w, h2f, rfl, rfl, rfl, rfl⟩

/-- Witness for C7: refreshing the refreshed `untitled - Notepad` handle
returns it unchanged. -/
theorem refreshWindow_idempotent_witness :
    (refresh_window demoSt
        (Target.handle (macHandleOf 1080 none infoNotepad ("untitled - Notepad".toList)))).1 =
      Except.ok (macHandleOf 1080 none infoNotepad ("untitled - Notepad".toList)) :=
  (refreshWindow_idempotent demoSt (Target.title ("notepad".toList))
    (macHandleOf 1080 none infoNotepad ("untitled - Notepad".toList))
    (by decide) (by decide)).1

/-- C8: `refresh_window` only reads the window set: the OS state after it —
in particular the frontmost process and the enumerated window list with its
activity flags — is exactly the state before it, and a non-activating
`capture_window`, which refreshes, inherits this. -/
theorem refreshWindow_no_focus_change (st : OSState) (t : Target) (p : Int) :
    (refresh_window st t).2 = st
    ∧ (refresh_window st t).2.frontmostPID = st.frontmostPID
    ∧ _list_windows_macos (refresh_window st t).2 1 = _list_windows_macos st 1
    ∧ (capture_window st t false p).2 = st := by
  refine ⟨refresh_snd st t, by rw [refresh_snd], by rw [refresh_snd], ?_⟩
  have hs := refresh_snd st t
  cases hpair : refresh_window st t with
  | mk r s2 =>
    rw [hpair] at hs
    dsimp only at hs
    have hcase : (if false then activate_window st t else refresh_window st t) =
        (r, st) := by
      simp only [Bool.false_eq_true, if_false]
      rw [hpair, hs]
    cases r with
    | error e => rw [capture_window_of_err st t false p e st hcase]
    | ok w =>
      by_cases hp : p < 0
      · rw [capture_window_of_neg st t false p w st hcase hp]
      · rw [capture_window_of_ok st t false p w st hcase hp]

/-- Witness for C8: refreshing in the demo state leaves the state intact. -/
theorem refreshWindow_no_focus_change_witness :
    (refresh_window demoSt (Target.title ("notepad".toList))).2 = demoSt :=
  (refreshWindow_no_focus_change demoSt (Target.title ("notepad".toList)) 0).1

/-- C9: every handle produced by the macOS enumeration — and hence by
`list_windows`, `find_window`, `refresh_window` and `activate_window` — and
every handle built by `_to_handle` on the pygetwindow path, even from a raw
bounding box reporting `right < left` or `bottom < top`, has non-negative
width and height. -/
theorem handles_nonneg :
    (∀ (st : OSState) (m : Nat), ∀ h ∈ list_windows st m, 0 ≤ h.width ∧ 0 ≤ h.height)
    ∧ (∀ (st : OSState) (q : List Char) (ex cs : Bool) (m : Nat) (h : WindowHandle),
        find_window st q ex cs m = Except.ok h → 0 ≤ h.width ∧ 0 ≤ h.height)
    ∧ (∀ (st : OSState) (t : Target) (h : WindowHandle),
        (refresh_window st t).1 = Except.ok h → 0 ≤ h.width ∧ 0 ≤ h.height)
    ∧ (∀ (st : OSState) (t : Target) (h : WindowHandle),
        (activate_window st t).1 = Except.ok h → 0 ≤ h.width ∧ 0 ≤ h.height)
    ∧ (∀ (ra : Option Int) (v : RawWindow),
        0 ≤ (_to_handle ra v).width ∧ 0 ≤ (_to_handle ra v).height) := by
  have hlist : ∀ (st : OSState) (m : Nat), ∀ h ∈ _list_windows_macos st m,
      0 ≤ h.width ∧ 0 ≤ h.height := by
    intro st m h hm
    exact (mem_iterGo_spec st.screenHeight st.frontmostPID st.infos [] h
      (List.mem_filter.mp hm).1).2
  have hrefresh : ∀ (st : OSState) (t : Target) (h : WindowHandle),
      (refresh_window st t).1 = Except.ok h → 0 ≤ h.width ∧ 0 ≤ h.height := by
    intro st t h hok
    exact hlist st 1 h (resolve_mem st t h ((refresh_ok_iff st t h).mp hok))
  refine ⟨hlist, ?_, hrefresh, ?_, ?_⟩
  · intro st q ex cs m h hok
    unfold find_window at hok
    split at hok
    next h2 hh2 =>
      cases hok
      exact hlist st m h (List.mem_of_find?_eq_some hh2)
    next => cases hok
  · intro st t h hok
    unfold activate_window at hok
    split at hok
    · cases hok
    next refreshed hres =>
      exact hrefresh _ _ h hok
  · intro ra v
    exact ⟨le_max_left 0 _, le_max_left 0 _⟩

/-- Witness for C9: the enumerated `untitled - Notepad` handle has
non-negative extent, as does a `_to_handle` of a raw box with
`right < left` and `bottom < top`. -/
theorem handles_nonneg_witness :
    (0 ≤ (macHandleOf 1080 none infoNotepad ("untitled - Notepad".toList)).width
      ∧ 0 ≤ (macHandleOf 1080 none infoNotepad ("untitled - Notepad".toList)).height)
    ∧ (0 ≤ (_to_handle none
        { title := "w".toList, left := 10, top := 10, right := 3, bottom := 2 }).width
      ∧ 0 ≤ (_to_handle none
        { title := "w".toList, left := 10, top := 10, right := 3, bottom := 2 }).height) :=
  ⟨handles_nonneg.1 demoSt 1
      (macHandleOf 1080 none infoNotepad ("untitled - Notepad".toList)) (by decide),
    handles_nonneg.2.2.2.2 none
      { title := "w".toList, left := 10, top := 10, right := 3, bottom := 2 }⟩

end DesktopApi

